import Mathlib

/-!
Shallow embedding of the pattern-matching analysis engine of
`app.py` (`analyze_python_code` and the recommendation derivation of the
results section).  Python regular expressions are embedded as values of a
small regex type `RE`; every pattern in the source uses repetition only
over single character classes, so `RE.star` takes a character class.
Matching is executed with Brzozowski derivatives; `searchB` models
`re.search` (a match exists somewhere) and `findallL` models `re.findall`
(leftmost non-overlapping matches).  For every credential pattern of the
source, at most one match length exists at a given start position, so the
maximal-length choice made by `findallL` coincides with the backtracking
choice made by Python's engine.
-/

/-- Regular expressions as used by `app.py`: repetition (`star`) only over a
single character class, which is faithful to every pattern in the source. -/
inductive RE where
  | fail : RE
  | eps : RE
  | cls : (Char → Bool) → RE
  | cat : RE → RE → RE
  | alt : RE → RE → RE
  | star : (Char → Bool) → RE

namespace RE

/-- Language of a regex, the specification of matching.  `star p` accepts
exactly the strings all of whose characters satisfy `p`. -/
def Lang : RE → List Char → Prop
  | fail, _ => False
  | eps, s => s = []
  | cls p, s => ∃ c, s = [c] ∧ p c = true
  | cat a b, s => ∃ u v, s = u ++ v ∧ Lang a u ∧ Lang b v
  | alt a b, s => Lang a s ∨ Lang b s
  | star p, s => ∀ c ∈ s, p c = true

/-- Does the regex accept the empty string? -/
def nullable : RE → Bool
  | fail => false
  | eps => true
  | cls _ => false
  | cat a b => nullable a && nullable b
  | alt a b => nullable a || nullable b
  | star _ => true

/-- Concatenation, simplifying `fail` and `eps` away to keep derivatives small. -/
def scat : RE → RE → RE
  | fail, _ => fail
  | _, fail => fail
  | eps, b => b
  | a, eps => a
  | a, b => cat a b

/-- Alternation, simplifying `fail` away to keep derivatives small. -/
def salt : RE → RE → RE
  | fail, b => b
  | a, fail => a
  | a, b => alt a b

/-- Brzozowski derivative of a regex with respect to one character. -/
def deriv : RE → Char → RE
  | fail, _ => fail
  | eps, _ => fail
  | cls p, c => if p c then eps else fail
  | cat a b, c =>
      if a.nullable then salt (scat (a.deriv c) b) (b.deriv c)
      else scat (a.deriv c) b
  | alt a b, c => salt (a.deriv c) (b.deriv c)
  | star p, c => if p c then star p else fail

/-- Does the regex match some prefix of `s` (possibly empty)? -/
def hasPre : RE → List Char → Bool
  | r, [] => r.nullable
  | r, c :: cs => r.nullable || hasPre (r.deriv c) cs

/-- `re.search` on a character list: a match exists at some position. -/
def searchB (r : RE) : List Char → Bool
  | [] => r.nullable
  | c :: cs => hasPre r (c :: cs) || searchB r cs

/-- Largest `j` with `i ≤ j` such that the regex matches `s₀[?..j]`, where `s`
is the suffix of `s₀` from position `i`; accumulator form. -/
def maxLenAux : RE → List Char → Nat → Option Nat → Option Nat
  | _, [], _, best => best
  | r, c :: cs, i, best =>
      let r2 := r.deriv c
      maxLenAux r2 cs (i + 1) (if r2.nullable then some (i + 1) else best)

/-- Length of the longest prefix of `s` matched by the regex, if any.  For the
credential patterns of the source at most one match length exists at a given
position, so this coincides with Python's backtracking (greedy) choice. -/
def maxLen (r : RE) (s : List Char) : Option Nat :=
  maxLenAux r s 0 (if r.nullable then some 0 else none)

/-- `re.findall` scan with explicit fuel (any fuel above the length of the
remaining input gives the same result; `findallL` supplies `length + 1`):
scan left to right, emit the match found at the leftmost matching position,
and continue after its end (advancing one position after an empty match, as
Python does). -/
def findallAux : Nat → RE → List Char → List (List Char)
  | 0, _, _ => []
  | _ + 1, r, [] => if r.nullable then [[]] else []
  | n + 1, r, c :: cs =>
      match maxLen r (c :: cs) with
      | none => findallAux n r cs
      | some 0 => [] :: findallAux n r cs
      | some (j + 1) => ((c :: cs).take (j + 1)) :: findallAux n r (cs.drop j)

/-- `re.findall` on a character list. -/
def findallL (r : RE) (s : List Char) : List (List Char) :=
  findallAux (s.length + 1) r s

/-- Character comparison used for regex literals; `ci` selects the
`re.IGNORECASE` behaviour (ASCII case folding — all literals in the source
are ASCII). -/
def chEq (ci : Bool) (c d : Char) : Bool :=
  if ci then c.toLower == d.toLower else c == d

/-- A single literal character. -/
def chr (c : Char) : RE := cls (fun d => c == d)

/-- A literal word, case-insensitive when `ci` is true. -/
def lit (ci : Bool) (w : List Char) : RE :=
  w.foldr (fun c r => cat (cls (chEq ci c)) r) eps

/-- `p?` for a character class `p`. -/
def copt (p : Char → Bool) : RE := alt (cls p) eps

/-- `p+` for a character class `p`. -/
def cplus (p : Char → Bool) : RE := cat (cls p) (star p)

end RE

/-- Python's `\s` (ASCII part; the source patterns only meet ASCII input in
the verified claims). -/
def isSpaceCh (c : Char) : Bool :=
  c == ' ' || c == '\t' || c == '\n' || c == '\r' || c == '\x0b' || c == '\x0c'

/-- Python's `\w` (ASCII part). -/
def isWordCh (c : Char) : Bool := c.isAlphanum || c == '_'

/-- Python's `.` without `re.DOTALL`: any character except a newline. -/
def isDotCh (c : Char) : Bool := !(c == '\n')

/-- A quote character, `["\']` in the source patterns. -/
def isQuoteCh (c : Char) : Bool := c == '"' || c == '\''

/-- `re.search(pattern, content, ...)` truthiness on Lean strings. -/
def research (r : RE) (s : String) : Bool := RE.searchB r s.data

/-- `re.findall(pattern, content, ...)` on Lean strings (patterns without
groups return the full matched substrings). -/
def findall (r : RE) (s : String) : List String :=
  (RE.findallL r s.data).map fun l => String.mk l

/-- `a|b` over a case-insensitive pair of literals, the common shape of the
library and framework patterns. -/
def impFrom (a b : String) : RE := RE.alt (RE.lit true a.data) (RE.lit true b.data)

/-- `llm_patterns` of `app.py` (labels and regexes, in source dictionary
order; Python dictionaries preserve insertion order). -/
def llm_patterns : List (String × RE) :=
  [("OpenAI", impFrom "import openai" "from openai"),
   ("Anthropic (Claude)", impFrom "import anthropic" "from anthropic"),
   ("LangChain", impFrom "import langchain" "from langchain"),
   ("Hugging Face", RE.alt (RE.lit true "import transformers".data)
      (RE.alt (RE.lit true "from transformers".data)
        (RE.lit true "import huggingface".data))),
   ("Google AI (Gemini)", impFrom "import google.generativeai" "from google.generativeai"),
   ("Cohere", impFrom "import cohere" "from cohere"),
   ("LlamaIndex", impFrom "import llama_index" "from llama_index"),
   ("Replicate", impFrom "import replicate" "from replicate"),
   ("Together AI", impFrom "import together" "from together"),
   ("Groq", impFrom "import groq" "from groq"),
   ("Ollama", impFrom "import ollama" "from ollama"),
   ("Mistral AI", impFrom "import mistralai" "from mistralai")]

/-- `framework_patterns` of `app.py`. -/
def framework_patterns : List (String × RE) :=
  [("FastAPI", impFrom "from fastapi" "import fastapi"),
   ("Flask", impFrom "from flask" "import flask"),
   ("Django", impFrom "from django" "import django"),
   ("Streamlit", RE.lit true "import streamlit".data),
   ("Gradio", RE.lit true "import gradio".data),
   ("PyTorch", RE.lit true "import torch".data),
   ("TensorFlow", RE.lit true "import tensorflow".data),
   ("NumPy", RE.lit true "import numpy".data),
   ("Pandas", RE.lit true "import pandas".data),
   ("SQLAlchemy", impFrom "from sqlalchemy" "import sqlalchemy"),
   ("Pydantic", impFrom "from pydantic" "import pydantic"),
   ("Requests", RE.lit true "import requests".data),
   ("AsyncIO", RE.lit true "import asyncio".data),
   ("Celery", impFrom "from celery" "import celery"),
   ("Redis", RE.lit true "import redis".data),
   ("MongoDB", impFrom "import pymongo" "from pymongo")]

/-- `<keyword>\s*=\s*["\'][^"\']+["\']`, the shared tail of the four
hardcoded-credential patterns. -/
def credAssign (kw : RE) : RE :=
  RE.cat kw (RE.cat (RE.star isSpaceCh) (RE.cat (RE.chr '=')
    (RE.cat (RE.star isSpaceCh) (RE.cat (RE.cls isQuoteCh)
      (RE.cat (RE.cplus (fun c => !isQuoteCh c)) (RE.cls isQuoteCh))))))

/-- `api[_-]?key\s*=\s*["\'][^"\']+["\']` (`re.IGNORECASE`). -/
def apiKeyRE : RE :=
  credAssign (RE.cat (RE.lit true "api".data)
    (RE.cat (RE.copt (fun c => c == '_' || c == '-')) (RE.lit true "key".data)))

/-- `secret\s*=\s*["\'][^"\']+["\']` (`re.IGNORECASE`). -/
def secretRE : RE := credAssign (RE.lit true "secret".data)

/-- `token\s*=\s*["\'][^"\']+["\']` (`re.IGNORECASE`). -/
def tokenRE : RE := credAssign (RE.lit true "token".data)

/-- `password\s*=\s*["\'][^"\']+["\']` (`re.IGNORECASE`). -/
def passwordRE : RE := credAssign (RE.lit true "password".data)

/-- `hardcoded_patterns` of `app.py`, in source order. -/
def hardcoded_patterns : List RE := [apiKeyRE, secretRE, tokenRE, passwordRE]

/-- `os\.getenv|os\.environ|load_dotenv` (case-sensitive: no flags passed). -/
def envUsageRE : RE :=
  RE.alt (RE.lit false "os.getenv".data)
    (RE.alt (RE.lit false "os.environ".data) (RE.lit false "load_dotenv".data))

/-- `.*` — zero or more non-newline characters. -/
def dotStar : RE := RE.star isDotCh

/-- `class.*\(.*BaseModel.*\)` (case-sensitive). -/
def pydanticRE : RE :=
  RE.cat (RE.lit false "class".data) (RE.cat dotStar (RE.cat (RE.chr '(')
    (RE.cat dotStar (RE.cat (RE.lit false "BaseModel".data)
      (RE.cat dotStar (RE.chr ')'))))))

/-- `async def` (case-sensitive). -/
def asyncDefRE : RE := RE.lit false "async def".data

/-- `@app\.route|@router\.|@api\.` (case-sensitive). -/
def restApiRE : RE :=
  RE.alt (RE.lit false "@app.route".data)
    (RE.alt (RE.lit false "@router.".data) (RE.lit false "@api.".data))

/-- `class.*Service|class.*Repository|class.*Controller` (case-sensitive). -/
def serviceLayerRE : RE :=
  RE.alt (RE.cat (RE.lit false "class".data) (RE.cat dotStar (RE.lit false "Service".data)))
    (RE.alt
      (RE.cat (RE.lit false "class".data) (RE.cat dotStar (RE.lit false "Repository".data)))
      (RE.cat (RE.lit false "class".data) (RE.cat dotStar (RE.lit false "Controller".data))))

/-- `class\s+\w+.*:` (case-sensitive). -/
def oopRE : RE :=
  RE.cat (RE.lit false "class".data) (RE.cat (RE.cplus isSpaceCh)
    (RE.cat (RE.cplus isWordCh) (RE.cat dotStar (RE.chr ':'))))

/-- `def\s+\w+\(.*\)\s*->` (case-sensitive). -/
def typeHintsRE : RE :=
  RE.cat (RE.lit false "def".data) (RE.cat (RE.cplus isSpaceCh)
    (RE.cat (RE.cplus isWordCh) (RE.cat (RE.chr '(')
      (RE.cat dotStar (RE.cat (RE.chr ')')
        (RE.cat (RE.star isSpaceCh) (RE.lit false "->".data)))))))

/-- The six architecture probes of `app.py`, each an independent conditional
`add` into the `patterns` set, in source order. -/
def architecture_probes : List (String × RE) :=
  [("Pydantic Models", pydanticRE),
   ("Async/Await Pattern", asyncDefRE),
   ("REST API", restApiRE),
   ("Service Layer Pattern", serviceLayerRE),
   ("Object-Oriented Programming", oopRE),
   ("Type Hints", typeHintsRE)]

/-- One input record: the `{'name': ..., 'content': ...}` dictionaries that
`analyze_python_code` consumes (`path` is never read by the analyzer). -/
structure FileInfo where
  name : String
  content : String
deriving DecidableEq

/-- One entry of `analysis['env_vars']['hardcoded']`. -/
structure Finding where
  file : String
  «matches» : List String
deriving DecidableEq

/-- One entry of `analysis['file_details']`. -/
structure FileAnalysis where
  name : String
  lines : Nat
  llms : List String
  frameworks : List String
  has_hardcoded : Bool
deriving DecidableEq

/-- The `analysis` dictionary returned by `analyze_python_code`
(`env_vars` and `architecture` sub-dictionaries flattened into fields). -/
structure Analysis where
  total_files : Nat
  python_files : Nat
  total_lines : Nat
  llm_libraries : Finset String
  frameworks : Finset String
  env_hardcoded : List Finding
  env_from_env : List String
  has_env_file : Bool
  arch_patterns : Finset String
  best_practices : List String
  issues : List String
  file_details : List FileAnalysis
deriving DecidableEq

/-- Python's `str.endswith`, as a suffix test on the character lists
(Lean's own `String.endsWith` is avoided because its byte-indexed loop does
not reduce inside the kernel). -/
def nameEndsWith (n suf : String) : Bool := suf.data.isSuffixOf n.data

/-- `content.split('\n')`: split on every newline; never empty, `[""] ↦ [[]]`
on empty content. -/
def splitNl : List Char → List (List Char)
  | [] => [[]]
  | c :: cs =>
      match splitNl cs with
      | [] => [[]]
      | h :: t => if c = '\n' then [] :: h :: t else (c :: h) :: t

/-- `len(content.split('\n'))`. -/
def lineCount (s : String) : Nat := (splitNl s.data).length

/-- The labels of a catalog whose pattern matches the content, in catalog
order; mirrors the `for name, pattern in ...items(): if re.search(...)`
loops (which append to the per-file lists and add to the global sets). -/
def detectNames (catalog : List (String × RE)) (content : String) : List String :=
  catalog.filterMap fun np => if research np.2 content then some np.1 else none

/-- Per-record credential findings: the `for pattern in hardcoded_patterns`
loop appends one `{'file': ..., 'matches': ...}` entry per pattern whose
`re.findall` result is non-empty. -/
def credFindings (fname content : String) : List Finding :=
  hardcoded_patterns.filterMap fun p =>
    let ms := findall p content
    if ms.isEmpty then none else some ⟨fname, ms⟩

/-- The `file_analysis` dictionary built for one record. -/
def fileDetailOf (f : FileInfo) : FileAnalysis :=
  { name := f.name
    lines := lineCount f.content
    llms := detectNames llm_patterns f.content
    frameworks := detectNames framework_patterns f.content
    has_hardcoded := !(credFindings f.name f.content).isEmpty }

/-- One iteration of the `for file_info in files_content` loop of
`analyze_python_code`. -/
def step (a : Analysis) (f : FileInfo) : Analysis :=
  { a with
    total_lines := a.total_lines + lineCount f.content
    llm_libraries := a.llm_libraries ∪ (detectNames llm_patterns f.content).toFinset
    frameworks := a.frameworks ∪ (detectNames framework_patterns f.content).toFinset
    env_hardcoded := a.env_hardcoded ++ credFindings f.name f.content
    env_from_env := a.env_from_env ++
      (if research envUsageRE f.content then [f.name] else [])
    has_env_file := a.has_env_file || (f.name == ".env")
    arch_patterns := a.arch_patterns ∪ (detectNames architecture_probes f.content).toFinset
    file_details := a.file_details ++ [fileDetailOf f] }

/-- The `analysis` dictionary as initialized before the loop. -/
def initAnalysis (files : List FileInfo) : Analysis :=
  { total_files := files.length
    python_files := files.countP fun f => nameEndsWith f.name ".py"
    total_lines := 0
    llm_libraries := ∅
    frameworks := ∅
    env_hardcoded := []
    env_from_env := []
    has_env_file := false
    arch_patterns := ∅
    best_practices := []
    issues := []
    file_details := [] }

/-- `analyze_python_code` of `app.py`: initialize, loop over the records,
then derive best practices and issues from the aggregate fields. -/
def analyze_python_code (files : List FileInfo) : Analysis :=
  let a := files.foldl step (initAnalysis files)
  { a with
    best_practices :=
      (if a.env_from_env ≠ [] then ["✓ Uses environment variables properly"] else []) ++
      (if "Async/Await Pattern" ∈ a.arch_patterns
        then ["✓ Implements asynchronous programming"] else []) ++
      (if files.any (fun f => f.name == "requirements.txt")
        then ["✓ Has requirements.txt for dependencies"] else []) ++
      (if "Type Hints" ∈ a.arch_patterns then ["✓ Uses type hints"] else [])
    issues :=
      (if a.env_hardcoded ≠ [] then ["⚠️ Hardcoded credentials detected"] else []) ++
      (if ¬ files.any (fun f => f.name == "requirements.txt")
        then ["⚠️ Missing requirements.txt"] else []) ++
      (if ¬ a.has_env_file ∧ a.llm_libraries ≠ ∅
        then ["⚠️ No .env file found (recommended for API keys)"] else []) }

/-- The `recommendations` list built in the results section of `app.py`
(sequential conditional appends, then three unconditional appends). -/
def recommendations (a : Analysis) : List String :=
  let recs : List String := []
  let recs := if a.env_hardcoded ≠ [] then
    recs ++ ["Move hardcoded credentials to environment variables"] else recs
  let recs := if ¬ a.has_env_file then
    recs ++ ["Create a .env file for configuration"] else recs
  let recs := if a.llm_libraries ≠ ∅ then
    recs ++ ["Implement proper error handling for API calls",
             "Add rate limiting and retry logic"] else recs
  let recs := if "Async/Await Pattern" ∉ a.arch_patterns ∧ a.llm_libraries ≠ ∅ then
    recs ++ ["Consider using async/await for better performance"] else recs
  recs ++ ["Add comprehensive logging", "Implement unit tests",
           "Add docstrings to functions and classes"]

/-- Closed form of the label sets accumulated by the analysis loop: the union
over the records of the labels detected in each record's content. -/
def detSet (catalog : List (String × RE)) : List FileInfo → Finset String
  | [] => ∅
  | f :: fs => (detectNames catalog f.content).toFinset ∪ detSet catalog fs

/-! ## Soundness of the derivative-based matcher

`searchB r s = true` whenever some factor of `s` is in the language of `r`;
this is the direction needed to establish that `re.search` probes fire on
inputs exhibited symbolically. -/

theorem nullable_of_lang {r : RE} (h : RE.Lang r []) : r.nullable = true := by
  induction r with
  | fail => cases h
  | eps => rfl
  | cls p => obtain ⟨c, hc, -⟩ := h; cases hc
  | cat a b iha ihb =>
      obtain ⟨u, v, huv, hu, hv⟩ := h
      obtain ⟨rfl, rfl⟩ := List.append_eq_nil.mp huv.symm
      simp [RE.nullable, iha hu, ihb hv]
  | alt a b iha ihb =>
      rcases h with h | h
      · simp [RE.nullable, iha h]
      · simp [RE.nullable, ihb h]
  | star p => rfl

theorem exists_split_nil_left {α} {Q : List α → Prop} {s : List α} :
    (∃ u v, s = u ++ v ∧ u = [] ∧ Q v) ↔ Q s := by
  constructor
  · rintro ⟨u, v, h1, rfl, h3⟩
    simpa [h1] using h3
  · exact fun h => ⟨[], s, rfl, rfl, h⟩

theorem exists_split_nil_right {α} {P : List α → Prop} {s : List α} :
    (∃ u v, s = u ++ v ∧ P u ∧ v = []) ↔ P s := by
  constructor
  · rintro ⟨u, v, h1, h2, rfl⟩
    simpa [h1] using h2
  · exact fun h => ⟨s, [], by simp, h, rfl⟩

theorem lang_scat (a b : RE) (s : List Char) :
    RE.Lang (RE.scat a b) s ↔ ∃ u v, s = u ++ v ∧ RE.Lang a u ∧ RE.Lang b v := by
  cases a <;> cases b <;>
    simp [RE.scat, RE.Lang, exists_split_nil_left, exists_split_nil_right]

theorem lang_salt (a b : RE) (s : List Char) :
    RE.Lang (RE.salt a b) s ↔ RE.Lang a s ∨ RE.Lang b s := by
  cases a <;> cases b <;> simp [RE.salt, RE.Lang]

theorem lang_deriv : ∀ {r : RE} {c : Char} {s : List Char},
    RE.Lang r (c :: s) → RE.Lang (r.deriv c) s := by
  intro r
  induction r with
  | fail => intro c s h; cases h
  | eps => intro c s h; cases h
  | cls p =>
      intro c s h
      obtain ⟨d, hd, hp⟩ := h
      injection hd with h1 h2
      subst h1
      subst h2
      simp [RE.deriv, hp, RE.Lang]
  | cat a b iha ihb =>
      intro c s h
      obtain ⟨u, v, huv, hu, hv⟩ := h
      cases u with
      | nil =>
          have hna := nullable_of_lang hu
          have hveq : v = c :: s := by simpa using huv.symm
          subst hveq
          simp only [RE.deriv, hna, if_true, lang_salt]
          exact Or.inr (ihb hv)
      | cons x u' =>
          rw [List.cons_append] at huv
          injection huv with hx hs
          subst hx
          have hda : RE.Lang (a.deriv c) u' := iha hu
          cases hna : a.nullable with
          | true =>
              simp only [RE.deriv, hna, if_true, lang_salt, lang_scat]
              exact Or.inl ⟨u', v, hs, hda, hv⟩
          | false =>
              simp only [RE.deriv, hna, Bool.false_eq_true, if_false, lang_scat]
              exact ⟨u', v, hs, hda, hv⟩
  | alt a b iha ihb =>
      intro c s h
      rw [RE.deriv, lang_salt]
      rcases h with h | h
      · exact Or.inl (iha h)
      · exact Or.inr (ihb h)
  | star p =>
      intro c s h
      have hc : p c = true := h c (List.mem_cons_self c s)
      simp only [RE.deriv, hc, if_true]
      exact fun d hd => h d (List.mem_cons_of_mem _ hd)

theorem hasPre_of_lang : ∀ {u : List Char} {r : RE} (v : List Char),
    RE.Lang r u → RE.hasPre r (u ++ v) = true := by
  intro u
  induction u with
  | nil =>
      intro r v h
      have hn := nullable_of_lang h
      cases v <;> simp [RE.hasPre, hn]
  | cons c u' ih =>
      intro r v h
      simp [RE.hasPre, ih v (lang_deriv h)]

theorem searchB_of_lang {r : RE} : ∀ (pre : List Char) {mid : List Char}
    (post : List Char), RE.Lang r mid → RE.searchB r (pre ++ mid ++ post) = true := by
  intro pre
  induction pre with
  | nil =>
      intro mid post h
      rw [List.nil_append]
      rcases hmp : mid ++ post with _ | ⟨c, cs⟩
      · obtain ⟨rfl, rfl⟩ := List.append_eq_nil.mp hmp
        simpa [RE.searchB] using nullable_of_lang h
      · have h1 : RE.hasPre r (mid ++ post) = true := hasPre_of_lang post h
        rw [hmp] at h1
        simp [RE.searchB, h1]
  | cons c pre' ih =>
      intro mid post h
      have h1 := ih post h
      rw [List.append_assoc] at h1
      simp [RE.searchB, h1]

theorem research_of_lang {r : RE} {s : String} {pre mid post : List Char}
    (hs : s.data = pre ++ mid ++ post) (h : RE.Lang r mid) :
    research r s = true := by
  unfold research
  rw [hs]
  exact searchB_of_lang pre post h

/-! ## Closed form of the analysis loop -/

theorem foldl_step (files : List FileInfo) (a : Analysis) :
    files.foldl step a =
      { a with
        total_lines := a.total_lines + (files.map fun f => lineCount f.content).sum
        llm_libraries := a.llm_libraries ∪ detSet llm_patterns files
        frameworks := a.frameworks ∪ detSet framework_patterns files
        env_hardcoded := a.env_hardcoded ++
          files.flatMap fun f => credFindings f.name f.content
        env_from_env := a.env_from_env ++
          ((files.filter fun f => research envUsageRE f.content).map fun f => f.name)
        has_env_file := a.has_env_file || files.any fun f => f.name == ".env"
        arch_patterns := a.arch_patterns ∪ detSet architecture_probes files
        file_details := a.file_details ++ files.map fileDetailOf } := by
  induction files generalizing a with
  | nil => simp [detSet]
  | cons f fs ih =>
      rw [List.foldl_cons, ih]
      simp [step, detSet, List.filter_cons, Finset.union_assoc, Nat.add_assoc,
        List.append_assoc, Bool.or_assoc, Analysis.mk.injEq]
      split_ifs <;> simp [List.append_assoc]

theorem analyze_total_files (files : List FileInfo) :
    (analyze_python_code files).total_files = files.length := by
  simp [analyze_python_code, foldl_step, initAnalysis]

theorem analyze_python_files (files : List FileInfo) :
    (analyze_python_code files).python_files =
      files.countP fun f => nameEndsWith f.name ".py" := by
  simp [analyze_python_code, foldl_step, initAnalysis]

theorem analyze_total_lines (files : List FileInfo) :
    (analyze_python_code files).total_lines =
      (files.map fun f => lineCount f.content).sum := by
  simp [analyze_python_code, foldl_step, initAnalysis]

theorem analyze_llm (files : List FileInfo) :
    (analyze_python_code files).llm_libraries = detSet llm_patterns files := by
  simp [analyze_python_code, foldl_step, initAnalysis]

theorem analyze_fw (files : List FileInfo) :
    (analyze_python_code files).frameworks = detSet framework_patterns files := by
  simp [analyze_python_code, foldl_step, initAnalysis]

theorem analyze_arch (files : List FileInfo) :
    (analyze_python_code files).arch_patterns = detSet architecture_probes files := by
  simp [analyze_python_code, foldl_step, initAnalysis]

theorem analyze_hardcoded (files : List FileInfo) :
    (analyze_python_code files).env_hardcoded =
      files.flatMap fun f => credFindings f.name f.content := by
  simp [analyze_python_code, foldl_step, initAnalysis]

theorem analyze_from_env (files : List FileInfo) :
    (analyze_python_code files).env_from_env =
      (files.filter fun f => research envUsageRE f.content).map fun f => f.name := by
  simp [analyze_python_code, foldl_step, initAnalysis]

theorem analyze_has_env (files : List FileInfo) :
    (analyze_python_code files).has_env_file = files.any fun f => f.name == ".env" := by
  simp [analyze_python_code, foldl_step, initAnalysis]

theorem analyze_file_details (files : List FileInfo) :
    (analyze_python_code files).file_details = files.map fileDetailOf := by
  simp [analyze_python_code, foldl_step, initAnalysis]

theorem mem_detSet {catalog : List (String × RE)} {x : String} :
    ∀ {files : List FileInfo},
      x ∈ detSet catalog files ↔ ∃ f ∈ files, x ∈ detectNames catalog f.content := by
  intro files
  induction files with
  | nil => simp [detSet]
  | cons f fs ih => simp [detSet, ih]

theorem detSet_perm (catalog : List (String × RE)) {files₁ files₂ : List FileInfo}
    (h : files₁.Perm files₂) : detSet catalog files₁ = detSet catalog files₂ := by
  ext x
  simp only [mem_detSet]
  constructor
  · rintro ⟨f, hf, hx⟩; exact ⟨f, h.mem_iff.mp hf, hx⟩
  · rintro ⟨f, hf, hx⟩; exact ⟨f, h.mem_iff.mpr hf, hx⟩

theorem detSet_append (catalog : List (String × RE)) (l₁ l₂ : List FileInfo) :
    detSet catalog (l₁ ++ l₂) = detSet catalog l₁ ∪ detSet catalog l₂ := by
  induction l₁ with
  | nil => simp [detSet]
  | cons f fs ih => simp [detSet, ih, Finset.union_assoc]

theorem analyze_best (files : List FileInfo) :
    (analyze_python_code files).best_practices =
      (if ((files.filter fun f => research envUsageRE f.content).map fun f => f.name) ≠ []
        then ["✓ Uses environment variables properly"] else []) ++
      (if "Async/Await Pattern" ∈ detSet architecture_probes files
        then ["✓ Implements asynchronous programming"] else []) ++
      (if files.any (fun f => f.name == "requirements.txt")
        then ["✓ Has requirements.txt for dependencies"] else []) ++
      (if "Type Hints" ∈ detSet architecture_probes files
        then ["✓ Uses type hints"] else []) := by
  simp [analyze_python_code, foldl_step, initAnalysis]

theorem analyze_issues (files : List FileInfo) :
    (analyze_python_code files).issues =
      (if (files.flatMap fun f => credFindings f.name f.content) ≠ []
        then ["⚠️ Hardcoded credentials detected"] else []) ++
      (if ¬ files.any (fun f => f.name == "requirements.txt")
        then ["⚠️ Missing requirements.txt"] else []) ++
      (if ¬ (files.any fun f => f.name == ".env") = true ∧ detSet llm_patterns files ≠ ∅
        then ["⚠️ No .env file found (recommended for API keys)"] else []) := by
  simp [analyze_python_code, foldl_step, initAnalysis]

theorem splitNl_ne_nil (l : List Char) : splitNl l ≠ [] := by
  cases l with
  | nil => simp [splitNl]
  | cons c cs =>
      rcases hcs : splitNl cs with _ | ⟨h1, t⟩
      · simp [splitNl, hcs]
      · simp only [splitNl, hcs]
        split_ifs <;> simp

theorem one_le_lineCount (s : String) : 1 ≤ lineCount s := by
  have h := splitNl_ne_nil s.data
  unfold lineCount
  rcases hs : splitNl s.data with _ | ⟨a, t⟩
  · exact absurd hs h
  · simp

theorem length_le_sum (l : List Nat) (h : ∀ x ∈ l, 1 ≤ x) : l.length ≤ l.sum := by
  induction l with
  | nil => simp
  | cons x xs ih =>
      simp only [List.length_cons, List.sum_cons]
      have h1 := h x (List.mem_cons_self x xs)
      have h2 := ih fun y hy => h y (List.mem_cons_of_mem _ hy)
      omega

theorem lang_lit_self (l : List Char) : RE.Lang (RE.lit false l) l := by
  induction l with
  | nil => exact rfl
  | cons c cs ih =>
      exact ⟨[c], cs, rfl, ⟨c, rfl, by simp [RE.chEq]⟩, ih⟩

theorem lang_chr (c : Char) : RE.Lang (RE.chr c) [c] := ⟨c, rfl, by simp⟩

theorem lang_cplus {p : Char → Bool} {l : List Char} (h1 : l ≠ [])
    (h2 : ∀ c ∈ l, p c = true) : RE.Lang (RE.cplus p) l := by
  cases l with
  | nil => exact absurd rfl h1
  | cons c cs =>
      exact ⟨[c], cs, rfl, ⟨c, rfl, h2 c (List.mem_cons_self c cs)⟩,
        fun d hd => h2 d (List.mem_cons_of_mem _ hd)⟩

theorem wordCh_isDot {c : Char} (h : isWordCh c = true) : isDotCh c = true := by
  rcases eq_or_ne c '\n' with rfl | hne
  · exact absurd h (by decide)
  · simp [isDotCh, hne]

theorem credFindings_spec (n c : String) :
    (credFindings n c = [] ↔ ∀ p ∈ hardcoded_patterns, findall p c = []) ∧
    (credFindings n c).length ≤ 4 ∧
    ∀ fd ∈ credFindings n c, fd.file = n := by
  simp only [credFindings, hardcoded_patterns, List.filterMap_cons, List.filterMap_nil]
  split_ifs <;> simp_all [List.isEmpty_iff]

/-! ## The claims -/

/-- C1 counterexample: on a single record whose content matches two of the
four credential expressions, `credentialFindings` holds two entries for that
one record, so it does not hold at most one entry per input record. -/
theorem c1_counterexample :
    (analyze_python_code [⟨"a.py", "api_key = \"x\"\nsecret = \"y\""⟩]).env_hardcoded =
      [⟨"a.py", ["api_key = \"x\""]⟩, ⟨"a.py", ["secret = \"y\""]⟩] ∧
    (analyze_python_code [⟨"a.py", "api_key = \"x\"\nsecret = \"y\""⟩]).env_hardcoded.length
      = 2 := by
  constructor <;> decide

/-- C1 (amended): a record contributes one CredentialFinding per credential
expression that matches its content — entries in the fixed expression order,
each carrying the record's name and that expression's matches in first-match
order — and contributes no entry iff no expression matches; hence up to four
entries per record (not at most one), concatenated in input-record order. -/
theorem c1_theorem (files : List FileInfo) :
    (analyze_python_code files).env_hardcoded =
      (files.flatMap fun f => credFindings f.name f.content) ∧
    ∀ f : FileInfo,
      (credFindings f.name f.content = [] ↔
        ∀ p ∈ hardcoded_patterns, findall p f.content = []) ∧
      (credFindings f.name f.content).length ≤ 4 ∧
      ∀ fd ∈ credFindings f.name f.content, fd.file = f.name :=
  ⟨analyze_hardcoded files, fun f => credFindings_spec f.name f.content⟩

/-- C2 counterexample: on the empty input collection the code neither fails
nor returns an all-empty Report — the `issues` field is non-empty. -/
theorem c2_counterexample : (analyze_python_code []).issues ≠ [] := by decide

/-- C2 (amended): on the empty input collection the Analyzer returns a Report
whose fields are all zero or empty except `issues`, which is exactly the
missing-requirements issue (there is no precondition failure path). -/
theorem c2_theorem :
    analyze_python_code [] =
      { total_files := 0, python_files := 0, total_lines := 0, llm_libraries := ∅,
        frameworks := ∅, env_hardcoded := [], env_from_env := [], has_env_file := false,
        arch_patterns := ∅, best_practices := [],
        issues := ["⚠️ Missing requirements.txt"], file_details := [] } := by
  decide

/-- C3: permuting the input records leaves `detectedLibraries`,
`detectedFrameworks`, `architecturePatterns`, `envUsingFiles` (as a set) and
`hasEnvFile` unchanged. -/
theorem c3_theorem (files₁ files₂ : List FileInfo) (h : files₁.Perm files₂) :
    (analyze_python_code files₁).llm_libraries =
      (analyze_python_code files₂).llm_libraries ∧
    (analyze_python_code files₁).frameworks = (analyze_python_code files₂).frameworks ∧
    (analyze_python_code files₁).arch_patterns =
      (analyze_python_code files₂).arch_patterns ∧
    (analyze_python_code files₁).env_from_env.toFinset =
      (analyze_python_code files₂).env_from_env.toFinset ∧
    (analyze_python_code files₁).has_env_file =
      (analyze_python_code files₂).has_env_file := by
  refine ⟨?_, ?_, ?_, ?_, ?_⟩
  · rw [analyze_llm, analyze_llm]
    exact detSet_perm _ h
  · rw [analyze_fw, analyze_fw]
    exact detSet_perm _ h
  · rw [analyze_arch, analyze_arch]
    exact detSet_perm _ h
  · rw [analyze_from_env, analyze_from_env]
    exact List.toFinset_eq_of_perm _ _ ((h.filter _).map _)
  · rw [analyze_has_env, analyze_has_env]
    rw [Bool.eq_iff_iff]
    simp only [List.any_eq_true]
    constructor
    · rintro ⟨f, hf, hp⟩
      exact ⟨f, h.mem_iff.mp hf, hp⟩
    · rintro ⟨f, hf, hp⟩
      exact ⟨f, h.mem_iff.mpr hf, hp⟩

/-- C3 witness: the permutation invariance at a concrete two-record input. -/
theorem c3_witness :
    (analyze_python_code [⟨".env", "X=1"⟩, ⟨"a.py", "import openai"⟩]).llm_libraries =
      (analyze_python_code [⟨"a.py", "import openai"⟩, ⟨".env", "X=1"⟩]).llm_libraries ∧
    (analyze_python_code [⟨".env", "X=1"⟩, ⟨"a.py", "import openai"⟩]).frameworks =
      (analyze_python_code [⟨"a.py", "import openai"⟩, ⟨".env", "X=1"⟩]).frameworks ∧
    (analyze_python_code [⟨".env", "X=1"⟩, ⟨"a.py", "import openai"⟩]).arch_patterns =
      (analyze_python_code [⟨"a.py", "import openai"⟩, ⟨".env", "X=1"⟩]).arch_patterns ∧
    (analyze_python_code [⟨".env", "X=1"⟩, ⟨"a.py", "import openai"⟩]).env_from_env.toFinset =
      (analyze_python_code [⟨"a.py", "import openai"⟩, ⟨".env", "X=1"⟩]).env_from_env.toFinset ∧
    (analyze_python_code [⟨".env", "X=1"⟩, ⟨"a.py", "import openai"⟩]).has_env_file =
      (analyze_python_code [⟨"a.py", "import openai"⟩, ⟨".env", "X=1"⟩]).has_env_file :=
  c3_theorem _ _ (List.Perm.swap _ _ _)

/-- C5: the worked single-record example — `detectedLibraries` is exactly
OpenAI, one credential finding with the matched assignment, the
hardcoded-credentials issue is present, and `hasEnvFile` is false. -/
theorem c5_theorem :
    (analyze_python_code
        [⟨"app.py", "import openai\napi_key = \"sk-12345\"\n"⟩]).llm_libraries =
      {"OpenAI"} ∧
    (analyze_python_code
        [⟨"app.py", "import openai\napi_key = \"sk-12345\"\n"⟩]).env_hardcoded =
      [⟨"app.py", ["api_key = \"sk-12345\""]⟩] ∧
    "⚠️ Hardcoded credentials detected" ∈
      (analyze_python_code
        [⟨"app.py", "import openai\napi_key = \"sk-12345\"\n"⟩]).issues ∧
    (analyze_python_code
        [⟨"app.py", "import openai\napi_key = \"sk-12345\"\n"⟩]).has_env_file = false := by
  refine ⟨by decide, by decide, by decide, by decide⟩

/-- C9: the Report is a deterministic pure function of the input collection —
two invocations on the same collection agree field-for-field, and so do the
derived recommendations. -/
theorem c9_theorem (files₁ files₂ : List FileInfo) (h : files₁ = files₂) :
    analyze_python_code files₁ = analyze_python_code files₂ ∧
    recommendations (analyze_python_code files₁) =
      recommendations (analyze_python_code files₂) := by
  subst h
  exact ⟨rfl, rfl⟩

/-- C9 witness: determinism at a concrete input. -/
theorem c9_witness :
    analyze_python_code [⟨"a.py", "x = 1"⟩] = analyze_python_code [⟨"a.py", "x = 1"⟩] ∧
    recommendations (analyze_python_code [⟨"a.py", "x = 1"⟩]) =
      recommendations (analyze_python_code [⟨"a.py", "x = 1"⟩]) :=
  c9_theorem _ _ rfl

/-- C10: internal consistency — one `fileDetails` entry per record,
`total_lines` is the sum of the per-file line counts, every per-file line
count is at least 1, and hence `total_files ≤ total_lines`. -/
theorem c10_theorem (files : List FileInfo) :
    (analyze_python_code files).file_details.length = files.length ∧
    (analyze_python_code files).total_lines =
      ((analyze_python_code files).file_details.map fun d => d.lines).sum ∧
    (∀ d ∈ (analyze_python_code files).file_details, 1 ≤ d.lines) ∧
    (analyze_python_code files).total_files ≤ (analyze_python_code files).total_lines := by
  refine ⟨?_, ?_, ?_, ?_⟩
  · rw [analyze_file_details, List.length_map]
  · rw [analyze_total_lines, analyze_file_details, List.map_map]
    rfl
  · intro d hd
    rw [analyze_file_details] at hd
    obtain ⟨f, -, rfl⟩ := List.mem_map.mp hd
    exact one_le_lineCount f.content
  · rw [analyze_total_files, analyze_total_lines]
    have h1 : files.length = (files.map fun f => lineCount f.content).length := by
      rw [List.length_map]
    rw [h1]
    refine length_le_sum _ ?_
    intro x hx
    obtain ⟨f, -, rfl⟩ := List.mem_map.mp hx
    exact one_le_lineCount f.content

/-- C10 witness: the consistency invariant at a concrete input. -/
theorem c10_witness :
    (analyze_python_code [⟨"a.py", "x=1\ny=2"⟩]).file_details.length = 1 ∧
    (analyze_python_code [⟨"a.py", "x=1\ny=2"⟩]).total_lines = 2 ∧
    1 ≤ (fileDetailOf ⟨"a.py", "x=1\ny=2"⟩).lines ∧
    (analyze_python_code [⟨"a.py", "x=1\ny=2"⟩]).total_files ≤
      (analyze_python_code [⟨"a.py", "x=1\ny=2"⟩]).total_lines := by
  have h := c10_theorem [⟨"a.py", "x=1\ny=2"⟩]
  exact ⟨h.1, by decide, by decide, h.2.2.2⟩

/-- C8 counterexample: on the empty input the recommendation sequence ends in
only three unconditional closing recommendations, not four — the whole
sequence is the create-env-file recommendation followed by the three
closers. -/
theorem c8_counterexample :
    recommendations (analyze_python_code []) =
      ["Create a .env file for configuration", "Add comprehensive logging",
       "Implement unit tests", "Add docstrings to functions and classes"] ∧
    (recommendations (analyze_python_code [])).length = 4 := by
  constructor <;> decide

/-- C8 (amended): the recommendations sequence is exactly, in this fixed
order: move-hardcoded-credentials (iff findings non-empty), create-env-file
(iff `hasEnvFile` false), add-error-handling and add-rate-limiting (iff
libraries detected), use-async (iff libraries detected and the async pattern
absent), then THREE unconditional closing recommendations (comprehensive
logging, unit tests, docstrings). -/
theorem c8_theorem (files : List FileInfo) :
    recommendations (analyze_python_code files) =
      (if (analyze_python_code files).env_hardcoded ≠ [] then
        ["Move hardcoded credentials to environment variables"] else []) ++
      (if ¬ (analyze_python_code files).has_env_file = true then
        ["Create a .env file for configuration"] else []) ++
      (if (analyze_python_code files).llm_libraries ≠ ∅ then
        ["Implement proper error handling for API calls",
         "Add rate limiting and retry logic"] else []) ++
      (if "Async/Await Pattern" ∉ (analyze_python_code files).arch_patterns ∧
          (analyze_python_code files).llm_libraries ≠ ∅ then
        ["Consider using async/await for better performance"] else []) ++
      ["Add comprehensive logging", "Implement unit tests",
       "Add docstrings to functions and classes"] := by
  simp only [recommendations]
  split_ifs <;> simp

/-- C4 counterexample: a record matching no content pattern still changes
fields other than the two counters — `python_files` and `fileDetails`
change when it is appended. -/
theorem c4_counterexample :
    detectNames llm_patterns "" = [] ∧
    detectNames framework_patterns "" = [] ∧
    detectNames architecture_probes "" = [] ∧
    credFindings "b.py" "" = [] ∧
    research envUsageRE "" = false ∧
    (analyze_python_code [⟨"b.py", ""⟩]).python_files ≠
      (analyze_python_code []).python_files ∧
    (analyze_python_code [⟨"b.py", ""⟩]).file_details ≠
      (analyze_python_code []).file_details := by
  refine ⟨by decide, by decide, by decide, by decide, by decide, by decide, by decide⟩

/-- C4 (amended): appending a record that matches no content pattern and
whose name is neither `.env` nor `requirements.txt` leaves every detection
set and the derived best-practice/issue lists unchanged; `total_files` grows
by 1, `total_lines` by the record's line count, `python_files` by 1 exactly
when the name ends in `.py`, and `fileDetails` gains the record's
(detection-free) entry at the end. -/
theorem c4_theorem (files : List FileInfo) (r : FileInfo)
    (h1 : detectNames llm_patterns r.content = [])
    (h2 : detectNames framework_patterns r.content = [])
    (h3 : detectNames architecture_probes r.content = [])
    (h4 : credFindings r.name r.content = [])
    (h5 : research envUsageRE r.content = false)
    (h6 : r.name ≠ ".env")
    (h7 : r.name ≠ "requirements.txt") :
    (analyze_python_code (files ++ [r])).llm_libraries =
      (analyze_python_code files).llm_libraries ∧
    (analyze_python_code (files ++ [r])).frameworks =
      (analyze_python_code files).frameworks ∧
    (analyze_python_code (files ++ [r])).arch_patterns =
      (analyze_python_code files).arch_patterns ∧
    (analyze_python_code (files ++ [r])).env_hardcoded =
      (analyze_python_code files).env_hardcoded ∧
    (analyze_python_code (files ++ [r])).env_from_env =
      (analyze_python_code files).env_from_env ∧
    (analyze_python_code (files ++ [r])).has_env_file =
      (analyze_python_code files).has_env_file ∧
    (analyze_python_code (files ++ [r])).best_practices =
      (analyze_python_code files).best_practices ∧
    (analyze_python_code (files ++ [r])).issues = (analyze_python_code files).issues ∧
    (analyze_python_code (files ++ [r])).total_files =
      (analyze_python_code files).total_files + 1 ∧
    (analyze_python_code (files ++ [r])).total_lines =
      (analyze_python_code files).total_lines + lineCount r.content ∧
    (analyze_python_code (files ++ [r])).python_files =
      (analyze_python_code files).python_files +
        (if nameEndsWith r.name ".py" then 1 else 0) ∧
    (analyze_python_code (files ++ [r])).file_details =
      (analyze_python_code files).file_details ++ [fileDetailOf r] := by
  have hb1 : (r.name == ".env") = false := beq_eq_false_iff_ne.mpr h6
  have hb2 : (r.name == "requirements.txt") = false := beq_eq_false_iff_ne.mpr h7
  have hllm : detSet llm_patterns (files ++ [r]) = detSet llm_patterns files := by
    simp [detSet_append, detSet, h1]
  have hfw : detSet framework_patterns (files ++ [r]) = detSet framework_patterns files := by
    simp [detSet_append, detSet, h2]
  have harch : detSet architecture_probes (files ++ [r]) =
      detSet architecture_probes files := by
    simp [detSet_append, detSet, h3]
  have hcred : ((files ++ [r]).flatMap fun f => credFindings f.name f.content) =
      files.flatMap fun f => credFindings f.name f.content := by
    simp [h4]
  have hfil : ((files ++ [r]).filter fun f => research envUsageRE f.content) =
      files.filter fun f => research envUsageRE f.content := by
    simp [List.filter_append, List.filter_cons, h5]
  have hanyenv : ((files ++ [r]).any fun f => f.name == ".env") =
      files.any fun f => f.name == ".env" := by
    simp [List.any_append, hb1]
  have hanyreq : ((files ++ [r]).any fun f => f.name == "requirements.txt") =
      files.any fun f => f.name == "requirements.txt" := by
    simp [List.any_append, hb2]
  refine ⟨?_, ?_, ?_, ?_, ?_, ?_, ?_, ?_, ?_, ?_, ?_, ?_⟩
  · rw [analyze_llm, analyze_llm, hllm]
  · rw [analyze_fw, analyze_fw, hfw]
  · rw [analyze_arch, analyze_arch, harch]
  · rw [analyze_hardcoded, analyze_hardcoded, hcred]
  · rw [analyze_from_env, analyze_from_env, hfil]
  · rw [analyze_has_env, analyze_has_env, hanyenv]
  · rw [analyze_best, analyze_best, hfil, harch, hanyreq]
  · rw [analyze_issues, analyze_issues, hcred, hanyreq, hanyenv, hllm]
  · rw [analyze_total_files, analyze_total_files]
    simp
  · rw [analyze_total_lines, analyze_total_lines]
    simp
  · rw [analyze_python_files, analyze_python_files]
    simp [List.countP_append, List.countP_cons]
  · rw [analyze_file_details, analyze_file_details]
    simp

/-- C4 witness: the amended frame property at a concrete input. -/
theorem c4_witness :
    (analyze_python_code [⟨"a.py", "import openai"⟩, ⟨"notes.txt", "hello"⟩]).llm_libraries =
      (analyze_python_code [⟨"a.py", "import openai"⟩]).llm_libraries ∧
    (analyze_python_code [⟨"a.py", "import openai"⟩, ⟨"notes.txt", "hello"⟩]).frameworks =
      (analyze_python_code [⟨"a.py", "import openai"⟩]).frameworks ∧
    (analyze_python_code [⟨"a.py", "import openai"⟩, ⟨"notes.txt", "hello"⟩]).arch_patterns =
      (analyze_python_code [⟨"a.py", "import openai"⟩]).arch_patterns ∧
    (analyze_python_code [⟨"a.py", "import openai"⟩, ⟨"notes.txt", "hello"⟩]).env_hardcoded =
      (analyze_python_code [⟨"a.py", "import openai"⟩]).env_hardcoded ∧
    (analyze_python_code [⟨"a.py", "import openai"⟩, ⟨"notes.txt", "hello"⟩]).env_from_env =
      (analyze_python_code [⟨"a.py", "import openai"⟩]).env_from_env ∧
    (analyze_python_code [⟨"a.py", "import openai"⟩, ⟨"notes.txt", "hello"⟩]).has_env_file =
      (analyze_python_code [⟨"a.py", "import openai"⟩]).has_env_file ∧
    (analyze_python_code [⟨"a.py", "import openai"⟩, ⟨"notes.txt", "hello"⟩]).best_practices =
      (analyze_python_code [⟨"a.py", "import openai"⟩]).best_practices ∧
    (analyze_python_code [⟨"a.py", "import openai"⟩, ⟨"notes.txt", "hello"⟩]).issues =
      (analyze_python_code [⟨"a.py", "import openai"⟩]).issues ∧
    (analyze_python_code [⟨"a.py", "import openai"⟩, ⟨"notes.txt", "hello"⟩]).total_files =
      (analyze_python_code [⟨"a.py", "import openai"⟩]).total_files + 1 ∧
    (analyze_python_code [⟨"a.py", "import openai"⟩, ⟨"notes.txt", "hello"⟩]).total_lines =
      (analyze_python_code [⟨"a.py", "import openai"⟩]).total_lines +
        lineCount "hello" ∧
    (analyze_python_code [⟨"a.py", "import openai"⟩, ⟨"notes.txt", "hello"⟩]).python_files =
      (analyze_python_code [⟨"a.py", "import openai"⟩]).python_files +
        (if nameEndsWith "notes.txt" ".py" then 1 else 0) ∧
    (analyze_python_code [⟨"a.py", "import openai"⟩, ⟨"notes.txt", "hello"⟩]).file_details =
      (analyze_python_code [⟨"a.py", "import openai"⟩]).file_details ++
        [fileDetailOf ⟨"notes.txt", "hello"⟩] :=
  c4_theorem [⟨"a.py", "import openai"⟩] ⟨"notes.txt", "hello"⟩
    (by decide) (by decide) (by decide) (by decide) (by decide)
    (by decide) (by decide)

/-- C6: a record with empty content contributes exactly one line to
`total_lines` and nothing to any content detector — libraries, frameworks,
credential findings, env usage, and architecture patterns are unchanged when
it is appended. -/
theorem c6_theorem (files : List FileInfo) (r : FileInfo) (h : r.content = "") :
    (analyze_python_code (files ++ [r])).total_lines =
      (analyze_python_code files).total_lines + 1 ∧
    (analyze_python_code (files ++ [r])).llm_libraries =
      (analyze_python_code files).llm_libraries ∧
    (analyze_python_code (files ++ [r])).frameworks =
      (analyze_python_code files).frameworks ∧
    (analyze_python_code (files ++ [r])).env_hardcoded =
      (analyze_python_code files).env_hardcoded ∧
    (analyze_python_code (files ++ [r])).env_from_env =
      (analyze_python_code files).env_from_env ∧
    (analyze_python_code (files ++ [r])).arch_patterns =
      (analyze_python_code files).arch_patterns := by
  have e1 : detectNames llm_patterns r.content = [] := by rw [h]; decide
  have e2 : detectNames framework_patterns r.content = [] := by rw [h]; decide
  have e3 : detectNames architecture_probes r.content = [] := by rw [h]; decide
  have e4 : credFindings r.name r.content = [] := by
    rw [h]
    rfl
  have e5 : research envUsageRE r.content = false := by rw [h]; decide
  have e6 : lineCount r.content = 1 := by rw [h]; decide
  refine ⟨?_, ?_, ?_, ?_, ?_, ?_⟩
  · rw [analyze_total_lines, analyze_total_lines]
    simp [e6]
  · rw [analyze_llm, analyze_llm]
    simp [detSet_append, detSet, e1]
  · rw [analyze_fw, analyze_fw]
    simp [detSet_append, detSet, e2]
  · rw [analyze_hardcoded, analyze_hardcoded]
    simp [e4]
  · rw [analyze_from_env, analyze_from_env]
    simp [List.filter_append, List.filter_cons, e5]
  · rw [analyze_arch, analyze_arch]
    simp [detSet_append, detSet, e3]

/-- C6 witness: the empty-content record property at a concrete input. -/
theorem c6_witness :
    (analyze_python_code [⟨"a.py", "import openai"⟩, ⟨".env", ""⟩]).total_lines =
      (analyze_python_code [⟨"a.py", "import openai"⟩]).total_lines + 1 ∧
    (analyze_python_code [⟨"a.py", "import openai"⟩, ⟨".env", ""⟩]).llm_libraries =
      (analyze_python_code [⟨"a.py", "import openai"⟩]).llm_libraries ∧
    (analyze_python_code [⟨"a.py", "import openai"⟩, ⟨".env", ""⟩]).frameworks =
      (analyze_python_code [⟨"a.py", "import openai"⟩]).frameworks ∧
    (analyze_python_code [⟨"a.py", "import openai"⟩, ⟨".env", ""⟩]).env_hardcoded =
      (analyze_python_code [⟨"a.py", "import openai"⟩]).env_hardcoded ∧
    (analyze_python_code [⟨"a.py", "import openai"⟩, ⟨".env", ""⟩]).env_from_env =
      (analyze_python_code [⟨"a.py", "import openai"⟩]).env_from_env ∧
    (analyze_python_code [⟨"a.py", "import openai"⟩, ⟨".env", ""⟩]).arch_patterns =
      (analyze_python_code [⟨"a.py", "import openai"⟩]).arch_patterns :=
  c6_theorem [⟨"a.py", "import openai"⟩] ⟨".env", ""⟩ rfl

/-- C7 counterexample: `classService` fires the service-layer probe (via the
`class.*Service` alternative, no whitespace or colon required) but not the
OOP probe `class\s+\w+.*:`, so the service-layer label does not imply the
OOP label. -/
theorem c7_counterexample :
    "Service Layer Pattern" ∈ detectNames architecture_probes "classService" ∧
    "Object-Oriented Programming" ∉ detectNames architecture_probes "classService" ∧
    "Service Layer Pattern" ∈
      (analyze_python_code [⟨"x.py", "classService"⟩]).arch_patterns ∧
    "Object-Oriented Programming" ∉
      (analyze_python_code [⟨"x.py", "classService"⟩]).arch_patterns := by
  refine ⟨by decide, by decide, by decide, by decide⟩

/-- C7 (amended): when the content contains a well-formed colon-terminated
class header whose name is made of word characters and ends in `Service`,
`Repository` or `Controller` — a substring `class` ␣ w k `:` with w word
characters — the detection yields both the Service Layer Pattern label and
the Object-Oriented Programming label.  (The unconditional implication of
the original claim fails, see the counterexample.) -/
theorem c7_theorem (s : String) (pre w k post : List Char)
    (hs : s.data =
      pre ++ ('c' :: 'l' :: 'a' :: 's' :: 's' :: ' ' :: (w ++ (k ++ (':' :: post)))))
    (hw : ∀ c ∈ w, isWordCh c = true)
    (hk : k = "Service".data ∨ k = "Repository".data ∨ k = "Controller".data) :
    "Service Layer Pattern" ∈ detectNames architecture_probes s ∧
    "Object-Oriented Programming" ∈ detectNames architecture_probes s := by
  have hkword : ∀ c ∈ k, isWordCh c = true := by
    rcases hk with rfl | rfl | rfl <;> decide
  have hkne : k ≠ [] := by
    rcases hk with rfl | rfl | rfl <;> decide
  have hdot : RE.Lang dotStar (' ' :: w) := by
    intro c hc
    rcases List.mem_cons.mp hc with rfl | hcw
    · decide
    · exact wordCh_isDot (hw c hcw)
  have hs1 : s.data = pre ++ ("class".data ++ (' ' :: (w ++ k))) ++ (':' :: post) := by
    rw [hs]
    simp
  have hmk : ∀ kw : List Char,
      RE.Lang (RE.cat (RE.lit false "class".data)
        (RE.cat dotStar (RE.lit false kw)))
        ("class".data ++ (' ' :: (w ++ kw))) := fun kw =>
    ⟨"class".data, ' ' :: (w ++ kw), rfl, lang_lit_self _,
      ⟨' ' :: w, kw, by simp, hdot, lang_lit_self _⟩⟩
  have hlang1 : RE.Lang serviceLayerRE ("class".data ++ (' ' :: (w ++ k))) := by
    rcases hk with rfl | rfl | rfl
    · exact Or.inl (hmk _)
    · exact Or.inr (Or.inl (hmk _))
    · exact Or.inr (Or.inr (hmk _))
  have hres1 : research serviceLayerRE s = true :=
    research_of_lang hs1 hlang1
  have hs2 : s.data =
      pre ++ ("class".data ++ ([' '] ++ ((w ++ k) ++ [':']))) ++ post := by
    rw [hs]
    simp
  have hlang2 : RE.Lang oopRE ("class".data ++ ([' '] ++ ((w ++ k) ++ [':']))) := by
    refine ⟨"class".data, [' '] ++ ((w ++ k) ++ [':']), rfl, lang_lit_self _, ?_⟩
    refine ⟨[' '], (w ++ k) ++ [':'], rfl, lang_cplus (by decide) (by decide), ?_⟩
    refine ⟨w ++ k, [':'], rfl, ?_, ?_⟩
    · refine lang_cplus ?_ ?_
      · intro hnil
        exact hkne (List.append_eq_nil.mp hnil).2
      · intro c hc
        rcases List.mem_append.mp hc with hcw | hck
        · exact hw c hcw
        · exact hkword c hck
    · exact ⟨[], [':'], rfl, fun c hc => absurd hc (List.not_mem_nil c), lang_chr ':'⟩
  have hres2 : research oopRE s = true :=
    research_of_lang hs2 hlang2
  constructor
  · refine List.mem_filterMap.mpr ⟨("Service Layer Pattern", serviceLayerRE), ?_, ?_⟩
    · simp [architecture_probes]
    · simp [hres1]
  · refine List.mem_filterMap.mpr ⟨("Object-Oriented Programming", oopRE), ?_, ?_⟩
    · simp [architecture_probes]
    · simp [hres2]

/-- C7 witness: both labels fire on the concrete header `class FooService:`. -/
theorem c7_witness :
    "Service Layer Pattern" ∈ detectNames architecture_probes "class FooService:" ∧
    "Object-Oriented Programming" ∈
      detectNames architecture_probes "class FooService:" :=
  c7_theorem "class FooService:" [] "Foo".data "Service".data []
    (by decide) (by decide) (Or.inl rfl)
